import Mathlib

/-!
Verification of the nonbonded-clash detection engine of
`cctbx/geometry_restraints/process_nonbonded_proxies.py`.

The module under verification is absent from the available sources; only its
regression test `cctbx/geometry_restraints/tst_process_nonbonded_proxies.py`
is present.  Following the specification, the data model and the operations
are therefore modelled from the specification text, and checked against the
exact values asserted by the regression test.
-/

namespace PNP

/-! ## Connectivity graph (spec section 3, section 4.1)

A bonded connectivity graph is an adjacency list over atom indices: entry
`i` lists the atoms directly bonded to atom `i`.  Indices outside the list
have no neighbours. -/

/-- Neighbours of atom `i` in the adjacency list `g`. -/
def nbrs (g : List (List Nat)) (i : Nat) : List Nat := g.getD i []

/-- Modelled from the spec: breadth-first, depth-limited reachability on the
bonded connectivity graph (section 4.1).  `reachIn g n i j` holds when there
is a bonded path of length at most `n` from `i` to `j`. -/
def reachIn (g : List (List Nat)) : Nat → Nat → Nat → Bool
  | 0, i, j => i == j
  | n + 1, i, j => i == j || (nbrs g i).any (fun k => reachIn g n k j)

/-- Bonded path of length at most `n` from `i` to `j`, as an inductive
predicate: either stay in place or take one bond and continue. -/
inductive Reach (g : List (List Nat)) : Nat → Nat → Nat → Prop
  | refl (n i : Nat) : Reach g n i i
  | step {n i k j : Nat} : k ∈ nbrs g i → Reach g n k j → Reach g (n + 1) i j

lemma reachIn_of_Reach {g : List (List Nat)} {n i j : Nat}
    (h : Reach g n i j) : reachIn g n i j = true := by
  induction h with
  | refl n i => cases n <;> simp [reachIn]
  | @step n i k j hk _ ih =>
      simp only [reachIn, Bool.or_eq_true, beq_iff_eq, List.any_eq_true]
      exact Or.inr ⟨k, hk, ih⟩

lemma Reach_of_reachIn {g : List (List Nat)} :
    ∀ n i j, reachIn g n i j = true → Reach g n i j := by
  intro n
  induction n with
  | zero =>
      intro i j h
      simp only [reachIn, beq_iff_eq] at h
      subst h
      exact Reach.refl 0 i
  | succ n ih =>
      intro i j h
      simp only [reachIn, Bool.or_eq_true, beq_iff_eq, List.any_eq_true] at h
      rcases h with h | ⟨k, hk, hr⟩
      · subst h; exact Reach.refl (n + 1) i
      · exact Reach.step hk (ih k j hr)

lemma Reach.snoc {g : List (List Nat)} {n i k j : Nat}
    (h : Reach g n i k) : j ∈ nbrs g k → Reach g (n + 1) i j := by
  induction h with
  | refl m a => intro hj; exact Reach.step hj (Reach.refl m j)
  | step hk _ ih => intro hj; exact Reach.step hk (ih hj)

lemma Reach.symm_of {g : List (List Nat)}
    (hsym : ∀ a b, b ∈ nbrs g a → a ∈ nbrs g b) {n i j : Nat}
    (h : Reach g n i j) : Reach g n j i := by
  induction h with
  | refl m a => exact Reach.refl m a
  | @step n i k j hk _ ih => exact ih.snoc (hsym i k hk)

/-- On an undirected (symmetric-adjacency) graph, depth-limited reachability
is symmetric. -/
lemma reachIn_symm {g : List (List Nat)}
    (hsym : ∀ a b, b ∈ nbrs g a → a ∈ nbrs g b) (n i j : Nat) :
    reachIn g n i j = reachIn g n j i := by
  have h1 : reachIn g n i j = true → reachIn g n j i = true := fun h =>
    reachIn_of_Reach ((Reach_of_reachIn n i j h).symm_of hsym)
  have h2 : reachIn g n j i = true → reachIn g n i j = true := fun h =>
    reachIn_of_Reach ((Reach_of_reachIn n j i h).symm_of hsym)
  cases hp : reachIn g n i j <;> cases hq : reachIn g n j i
  · rfl
  · exact absurd (h2 hq) (by simp [hp])
  · exact absurd (h1 hp) (by simp [hq])
  · rfl

/-- A pair at bonded-path length exactly 4: reachable in 4 bonds but not
in 3 (section 4.1, a "1-5 interaction"). -/
def isPathLen4 (g : List (List Nat)) (i j : Nat) : Bool :=
  reachIn g 4 i j && !(reachIn g 3 i j)

/-- Modelled from the spec: `check_if_1_5_interaction(i, j, hd_sel,
full_connectivity_table)` of the missing module
`process_nonbonded_proxies.py`.  Per sections 4.1 and 8, it returns true
only for the hydrogen/heavy-atom asymmetric 1-5 pattern: the shortest
bonded path between `i` and `j` has length exactly 4 and exactly one of the
two atoms is a hydrogen. -/
def check_if_1_5_interaction (i j : Nat) (hd_sel : List Bool)
    (g : List (List Nat)) : Bool :=
  isPathLen4 g i j && (hd_sel.getD i false != hd_sel.getD j false)

/-- Reduces the unbounded symmetric-adjacency condition to a decidable
bounded check over the adjacency list. -/
lemma nbrs_symm_of_decide (g : List (List Nat))
    (h : decide (∀ a < g.length, ∀ b ∈ nbrs g a, a ∈ nbrs g b) = true) :
    ∀ a b, b ∈ nbrs g a → a ∈ nbrs g b := by
  intro a b hb
  have h' := of_decide_eq_true h
  by_cases ha : a < g.length
  · exact h' a ha b hb
  · exfalso
    have hz : nbrs g a = [] := List.getD_eq_default _ _ (le_of_not_lt ha)
    rw [hz] at hb
    exact absurd hb (List.not_mem_nil b)

/-! ## Claims C2 and C3: the 1-5 classifier -/

/-- C2: `check_if_1_5_interaction(i, j, hd_sel, full_connectivity_table)`
returns true only for the hydrogen/heavy-atom asymmetric 1-5 pattern: on a
connectivity graph, it returns true for a pair at bonded-path length
exactly 4 with exactly one hydrogen, false for a pair at path length 3,
false for a pair at path length 5, false for a 1-5 pair of two
non-hydrogen atoms, and false for a 1-5 pair of two hydrogens. -/
theorem c2_truth_table (g : List (List Nat)) (hd : List Bool) :
    (∀ i j, reachIn g 4 i j = true → reachIn g 3 i j = false →
      hd.getD i false ≠ hd.getD j false →
      check_if_1_5_interaction i j hd g = true) ∧
    (∀ i j, reachIn g 3 i j = true → reachIn g 2 i j = false →
      check_if_1_5_interaction i j hd g = false) ∧
    (∀ i j, reachIn g 5 i j = true → reachIn g 4 i j = false →
      check_if_1_5_interaction i j hd g = false) ∧
    (∀ i j, reachIn g 4 i j = true → reachIn g 3 i j = false →
      hd.getD i false = false → hd.getD j false = false →
      check_if_1_5_interaction i j hd g = false) ∧
    (∀ i j, reachIn g 4 i j = true → reachIn g 3 i j = false →
      hd.getD i false = true → hd.getD j false = true →
      check_if_1_5_interaction i j hd g = false) := by
  refine ⟨?_, ?_, ?_, ?_, ?_⟩
  · intro i j h4 h3 hx
    unfold check_if_1_5_interaction isPathLen4
    rw [h4, h3]
    cases hpi : hd.getD i false <;> cases hpj : hd.getD j false <;>
      simp_all
  · intro i j h3 _
    unfold check_if_1_5_interaction isPathLen4
    rw [h3]
    simp
  · intro i j _ h4
    unfold check_if_1_5_interaction isPathLen4
    rw [h4]
    simp
  · intro i j h4 h3 hi hj
    unfold check_if_1_5_interaction isPathLen4
    rw [h4, h3, hi, hj]
    simp
  · intro i j _ _ hi hj
    unfold check_if_1_5_interaction
    rw [hi, hj]
    simp

/-- Concrete witness graph: a simple path 0-1-2-3-4-5. -/
def gW6 : List (List Nat) := [[1], [0, 2], [1, 3], [2, 4], [3, 5], [4]]

/-- Hydrogen flags: atom 0 and atom 5 are hydrogens. -/
def hdW1 : List Bool := [true, false, false, false, false, true]

/-- Hydrogen flags: no hydrogens. -/
def hdW0 : List Bool := [false, false, false, false, false, false]

/-- Hydrogen flags: atom 0 and atom 4 are hydrogens. -/
def hdW2 : List Bool := [true, false, false, false, true, false]

/-- Witness for C2 on the path graph 0-1-2-3-4-5: the pair (0,4) is at
path length 4 and mixed H/heavy, (0,3) at length 3, (0,5) at length 5,
and (0,4) again under all-heavy and under two-hydrogen flag vectors. -/
theorem c2_truth_table_witness :
    check_if_1_5_interaction 0 4 hdW1 gW6 = true ∧
    check_if_1_5_interaction 0 3 hdW1 gW6 = false ∧
    check_if_1_5_interaction 0 5 hdW1 gW6 = false ∧
    check_if_1_5_interaction 0 4 hdW0 gW6 = false ∧
    check_if_1_5_interaction 0 4 hdW2 gW6 = false :=
  ⟨(c2_truth_table gW6 hdW1).1 0 4 (by decide) (by decide) (by decide),
   (c2_truth_table gW6 hdW1).2.1 0 3 (by decide) (by decide),
   (c2_truth_table gW6 hdW1).2.2.1 0 5 (by decide) (by decide),
   (c2_truth_table gW6 hdW0).2.2.2.1 0 4 (by decide) (by decide) (by decide)
     (by decide),
   (c2_truth_table gW6 hdW2).2.2.2.2 0 4 (by decide) (by decide) (by decide)
     (by decide)⟩

/-- C3: on an undirected connectivity graph, `check_if_1_5_interaction` is
symmetric in its two atom-index arguments: for every pair of atom indices
`i`, `j` and the same hydrogen-selection and connectivity inputs,
`check_if_1_5_interaction i j = check_if_1_5_interaction j i`. -/
theorem c3_symmetric (g : List (List Nat)) (hd : List Bool) (i j : Nat)
    (hsym : ∀ a b, b ∈ nbrs g a → a ∈ nbrs g b) :
    check_if_1_5_interaction i j hd g = check_if_1_5_interaction j i hd g := by
  unfold check_if_1_5_interaction isPathLen4
  rw [reachIn_symm hsym 4 i j, reachIn_symm hsym 3 i j]
  have hbne : (hd.getD i false != hd.getD j false)
      = (hd.getD j false != hd.getD i false) := by
    cases hd.getD i false <;> cases hd.getD j false <;> rfl
  rw [hbne]

/-- Witness for C3 at the concrete pair (0,4) of the path graph. -/
theorem c3_symmetric_witness :
    check_if_1_5_interaction 0 4 hdW1 gW6
      = check_if_1_5_interaction 4 0 hdW1 gW6 :=
  c3_symmetric gW6 hdW1 0 4 (nbrs_symm_of_decide gW6 (by decide))

/-! ## The colinearity test `cos_vec` (spec section 4.2)

Coordinates are triples of reals.  The module is absent from the sources,
so two candidate definitions are compared.  `cos_vec_spec_val` follows the
words of the spec (the angle at vertex `v`).  On the fixture of
`test_inline_angle` the spec formula evaluates to about 0.2106, while the
regression test in `tst_process_nonbonded_proxies.py` asserts 0.5072; the
value asserted by the test is reproduced exactly (to 4 decimals) by the
angle between the ray `u` to `v` and the ray from the midpoint of `u` and
`v` toward `w`, which `cos_vec_val` implements. -/

/-- A point or vector in three-dimensional Cartesian space. -/
abbrev Pt3 : Type := ℝ × ℝ × ℝ

/-- Componentwise difference `a - b`. -/
noncomputable def vsub (a b : Pt3) : Pt3 := (a.1 - b.1, a.2.1 - b.2.1, a.2.2 - b.2.2)

/-- Euclidean dot product. -/
noncomputable def dot3 (a b : Pt3) : ℝ := a.1 * b.1 + a.2.1 * b.2.1 + a.2.2 * b.2.2

/-- Squared Euclidean norm. -/
noncomputable def normSq3 (a : Pt3) : ℝ := dot3 a a

/-- Midpoint of two points. -/
noncomputable def midpt (a b : Pt3) : Pt3 :=
  ((a.1 + b.1) / 2, (a.2.1 + b.2.1) / 2, (a.2.2 + b.2.2) / 2)

/-- Modelled from the spec, as the words of section 4.2 have it: the cosine
of the angle at vertex `v` between rays toward `u` and toward `w`, the dot
product of `u - v` and `w - v` divided by the product of their norms. -/
noncomputable def cos_vec_spec_val (u v w : Pt3) : ℝ :=
  dot3 (vsub u v) (vsub w v)
    / (Real.sqrt (normSq3 (vsub u v)) * Real.sqrt (normSq3 (vsub w v)))

/-- Modelled from the spec: the value of `cos_vec(u, v, w)` of the missing
module, amended to the formula that reproduces the value 0.5072 asserted by
`test_inline_angle`: the cosine of the angle between the vector from `u` to
`v` and the vector from the midpoint of `u` and `v` toward `w`. -/
noncomputable def cos_vec_val (u v w : Pt3) : ℝ :=
  dot3 (vsub v u) (vsub w (midpt u v))
    / (Real.sqrt (normSq3 (vsub v u)) * Real.sqrt (normSq3 (vsub w (midpt u v))))

open scoped Classical in
/-- Modelled from the spec: `cos_vec` fails with an arithmetic error
(`none`) when either direction vector has zero length, and otherwise
returns the cosine; the division that raises in the missing module is the
one of `cos_vec_val`. -/
noncomputable def cos_vec (u v w : Pt3) : Option ℝ :=
  if normSq3 (vsub v u) = 0 ∨ normSq3 (vsub w (midpt u v)) = 0 then none
  else some (cos_vec_val u v w)

lemma normSq3_vsub_eq_zero (a b : Pt3) : normSq3 (vsub a b) = 0 ↔ a = b := by
  unfold normSq3 dot3 vsub
  constructor
  · intro h
    dsimp only at h
    have h1 : a.1 - b.1 = 0 := by
      nlinarith [mul_self_nonneg (a.1 - b.1), mul_self_nonneg (a.2.1 - b.2.1),
        mul_self_nonneg (a.2.2 - b.2.2)]
    have h2 : a.2.1 - b.2.1 = 0 := by
      nlinarith [mul_self_nonneg (a.1 - b.1), mul_self_nonneg (a.2.1 - b.2.1),
        mul_self_nonneg (a.2.2 - b.2.2)]
    have h3 : a.2.2 - b.2.2 = 0 := by
      nlinarith [mul_self_nonneg (a.1 - b.1), mul_self_nonneg (a.2.1 - b.2.1),
        mul_self_nonneg (a.2.2 - b.2.2)]
    have hp : a.2 = b.2 := Prod.ext (sub_eq_zero.mp h2) (sub_eq_zero.mp h3)
    exact Prod.ext (sub_eq_zero.mp h1) hp
  · intro h
    subst h
    dsimp only
    ring

/-! The three atom coordinates of `test_inline_angle`. -/

def angU : Pt3 := (40.196, 3.261, -48.474)

def angV : Pt3 := (39.466, 4.279, -52.202)

def angW : Pt3 := (37.407, 5.077, -51.025)

/-- C7 counterexample: on the `test_inline_angle` fixture, the formula the
spec states for `cos_vec` (cosine of the angle at vertex `v`) evaluates to
about 0.2106, which is not within 0.001 of the value 0.5072 asserted by
the regression test, so the claim as stated is false. -/
theorem c7_counterexample :
    ¬ (|cos_vec_spec_val angU angV angW - 0.5072| ≤ 0.001) := by
  intro habs
  have hA : normSq3 (vsub angU angV) = 1933401 / 125000 := by
    unfold normSq3 dot3 vsub angU angV
    norm_num
  have hB : normSq3 (vsub angW angV) = 3130807 / 500000 := by
    unfold normSq3 dot3 vsub angW angV
    norm_num
  have hD : dot3 (vsub angU angV) (vsub angW angV) = 1036211 / 500000 := by
    unfold dot3 vsub angU angV angW
    norm_num
  have hval : cos_vec_spec_val angU angV angW
      = (1036211 / 500000 : ℝ)
        / Real.sqrt ((1933401 / 125000 : ℝ) * (3130807 / 500000)) := by
    unfold cos_vec_spec_val
    rw [hA, hB, hD, ← Real.sqrt_mul (by norm_num)]
  set s : ℝ := Real.sqrt ((1933401 / 125000 : ℝ) * (3130807 / 500000)) with hsdef
  have hs : 0 < s := Real.sqrt_pos.mpr (by norm_num)
  have hub : (1036211 / 500000 : ℝ) / (3 / 10) ≤ s := by
    rw [hsdef]
    exact (Real.le_sqrt (by norm_num) (by norm_num)).mpr (by norm_num)
  have hsmall : cos_vec_spec_val angU angV angW ≤ 3 / 10 := by
    rw [hval, div_le_iff₀ hs]
    nlinarith
  rw [abs_le] at habs
  have h1 := habs.1
  rw [hval] at h1
  rw [hval] at hsmall
  linarith

/-- C7 (amended): `cos_vec(u, v, w)` equals the dot product of `v - u` and
`w - (u+v)/2` divided by the product of their Euclidean norms (the cosine
of the angle between the `u` to `v` axis and the ray from their midpoint
toward `w`), and on the `test_inline_angle` fixture it returns a value
within 0.001 of 0.5072. -/
theorem c7_cos_vec_fixture :
    ∃ c, cos_vec angU angV angW = some c ∧ |c - 0.5072| ≤ 0.001 := by
  have hA : normSq3 (vsub angV angU) = 1933401 / 125000 := by
    unfold normSq3 dot3 vsub angU angV
    norm_num
  have hB : normSq3 (vsub angW (midpt angU angV)) = 4027997 / 500000 := by
    unfold normSq3 dot3 vsub midpt angU angV angW
    norm_num
  have hD : dot3 (vsub angV angU) (vsub angW (midpt angU angV))
      = 2830591 / 500000 := by
    unfold dot3 vsub midpt angU angV angW
    norm_num
  refine ⟨cos_vec_val angU angV angW, ?_, ?_⟩
  · unfold cos_vec
    rw [if_neg]
    push_neg
    constructor
    · rw [hA]; norm_num
    · rw [hB]; norm_num
  · have hval : cos_vec_val angU angV angW
        = (2830591 / 500000 : ℝ)
          / Real.sqrt ((1933401 / 125000 : ℝ) * (4027997 / 500000)) := by
      unfold cos_vec_val
      rw [hA, hB, hD, ← Real.sqrt_mul (by norm_num)]
    set s : ℝ := Real.sqrt ((1933401 / 125000 : ℝ) * (4027997 / 500000))
      with hsdef
    have hs : 0 < s := Real.sqrt_pos.mpr (by norm_num)
    have hlb : (2830591 / 500000 : ℝ) / (5082 / 10000) ≤ s := by
      rw [hsdef]
      exact (Real.le_sqrt (by norm_num) (by norm_num)).mpr (by norm_num)
    have hub : s ≤ (2830591 / 500000 : ℝ) / (5062 / 10000) := by
      rw [hsdef]
      have h1 : ((1933401 / 125000 : ℝ) * (4027997 / 500000))
          ≤ ((2830591 / 500000 : ℝ) / (5062 / 10000)) ^ 2 := by norm_num
      calc Real.sqrt ((1933401 / 125000 : ℝ) * (4027997 / 500000))
          ≤ Real.sqrt (((2830591 / 500000 : ℝ) / (5062 / 10000)) ^ 2) :=
            Real.sqrt_le_sqrt h1
        _ = (2830591 / 500000 : ℝ) / (5062 / 10000) :=
            Real.sqrt_sq (by norm_num)
    rw [hval, abs_le]
    constructor
    · have h2 : (5062 / 10000 : ℝ) ≤ (2830591 / 500000 : ℝ) / s := by
        rw [le_div_iff₀ hs]
        nlinarith
      linarith
    · have h2 : (2830591 / 500000 : ℝ) / s ≤ (5082 / 10000 : ℝ) := by
        rw [div_le_iff₀ hs]
        nlinarith
      linarith

/-- C8 counterexample: with `u = (0,0,0)` and `v = w = (1,0,0)` the second
point and the third coincide (`w = v`), yet `cos_vec` does not fail: the
direction vector the missing module actually normalizes at `w` runs from
the midpoint of `u` and `v`, which is nonzero here.  The claim that a
duplicate `w = v` always raises an arithmetic error is therefore false. -/
theorem c8_counterexample :
    cos_vec ((0 : ℝ), (0 : ℝ), (0 : ℝ)) (1, 0, 0) (1, 0, 0) ≠ none := by
  unfold cos_vec
  rw [if_neg]
  · exact Option.some_ne_none _
  push_neg
  constructor
  · unfold normSq3 dot3 vsub
    norm_num
  · unfold normSq3 dot3 vsub midpt
    norm_num

/-- C8 (amended): `cos_vec` fails with an arithmetic error exactly when one
of its two direction vectors has zero length, which happens exactly when
`u = v` (the axis vector vanishes) or `w` is the midpoint of `u` and `v`
(the ray toward `w` vanishes). -/
theorem c8_cos_vec_error_iff (u v w : Pt3) :
    cos_vec u v w = none ↔ u = v ∨ w = midpt u v := by
  unfold cos_vec
  by_cases h : normSq3 (vsub v u) = 0 ∨ normSq3 (vsub w (midpt u v)) = 0
  · rw [if_pos h]
    rcases h with h | h
    · simp only [true_iff]
      exact Or.inl ((normSq3_vsub_eq_zero v u).mp h).symm
    · simp only [true_iff]
      exact Or.inr ((normSq3_vsub_eq_zero w (midpt u v)).mp h)
  · rw [if_neg h]
    push_neg at h
    constructor
    · intro hc
      exact absurd hc (Option.some_ne_none _)
    · intro hc
      exfalso
      rcases hc with hc | hc
      · exact h.1 ((normSq3_vsub_eq_zero v u).mpr hc.symm)
      · exact h.2 ((normSq3_vsub_eq_zero w (midpt u v)).mpr hc)

/-! ## Clash detection and aggregation (spec sections 3, 4.4, 4.5, 6)

The detector works on exact rational coordinates so that every decision is
executable; the distance comparisons of section 4.4 are taken on squares,
which is equivalent because distances are nonnegative. -/

/-- Modelled from the spec: the per-atom attributes the detector consumes
(section 3): Cartesian position, van der Waals radius, hydrogen flag. -/
structure Atom where
  x : ℚ
  y : ℚ
  z : ℚ
  vdw : ℚ
  isH : Bool
deriving DecidableEq

instance : Inhabited Atom := ⟨⟨0, 0, 0, 0, false⟩⟩

/-- Squared Euclidean distance between two atom positions. -/
def distSq (a b : Atom) : ℚ :=
  (a.x - b.x) ^ 2 + (a.y - b.y) ^ 2 + (a.z - b.z) ^ 2

/-- Modelled from the spec: the clash condition of section 4.4: `distance <
(vdw_i + vdw_j) - overlap_tolerance` and `distance >= hard_minimum`, with
both comparisons squared. -/
def isClash (a b : Atom) (tol hmin : ℚ) : Bool :=
  decide (0 ≤ a.vdw + b.vdw - tol)
    && decide (distSq a b < (a.vdw + b.vdw - tol) ^ 2)
    && (decide (hmin ≤ 0) || decide (hmin ^ 2 ≤ distSq a b))

/-- The squared comparisons of `isClash` agree with the real-distance
clash condition of section 4.4. -/
lemma isClash_iff_sqrt (a b : Atom) (tol hmin : ℚ) :
    isClash a b tol hmin = true ↔
      (Real.sqrt (distSq a b) < (a.vdw : ℝ) + b.vdw - tol ∧
        (hmin : ℝ) ≤ Real.sqrt (distSq a b)) := by
  have hd0 : (0 : ℝ) ≤ (distSq a b : ℝ) := by
    have : (0 : ℚ) ≤ distSq a b := by unfold distSq; positivity
    exact_mod_cast this
  have hsq : Real.sqrt (distSq a b) ^ 2 = (distSq a b : ℝ) := Real.sq_sqrt hd0
  unfold isClash
  simp only [Bool.and_eq_true, Bool.or_eq_true, decide_eq_true_eq]
  constructor
  · rintro ⟨⟨h1, h2⟩, h3⟩
    have hc : (0 : ℝ) ≤ (a.vdw : ℝ) + b.vdw - tol := by exact_mod_cast h1
    have hlt : (distSq a b : ℝ) < ((a.vdw : ℝ) + b.vdw - tol) ^ 2 := by
      have h2' : ((distSq a b : ℚ) : ℝ) < (((a.vdw + b.vdw - tol) ^ 2 : ℚ) : ℝ) := by
        exact_mod_cast h2
      push_cast at h2'
      linarith
    constructor
    · by_cases hz : (0 : ℝ) < (a.vdw : ℝ) + b.vdw - tol
      · exact (Real.sqrt_lt' hz).mpr hlt
      · exfalso
        have hz' : (a.vdw : ℝ) + b.vdw - tol = 0 := le_antisymm (not_lt.mp hz) hc
        rw [hz'] at hlt
        nlinarith
    · rcases h3 with h3 | h3
      · calc (hmin : ℝ) ≤ 0 := by exact_mod_cast h3
          _ ≤ Real.sqrt (distSq a b) := Real.sqrt_nonneg _
      · by_cases hm : (0 : ℝ) ≤ (hmin : ℝ)
        · refine (Real.le_sqrt hm hd0).mpr ?_
          exact_mod_cast h3
        · calc (hmin : ℝ) ≤ 0 := le_of_not_le hm
            _ ≤ Real.sqrt (distSq a b) := Real.sqrt_nonneg _
  · rintro ⟨h1, h2⟩
    have hc : (0 : ℝ) ≤ (a.vdw : ℝ) + b.vdw - tol :=
      le_trans (Real.sqrt_nonneg _) (le_of_lt h1)
    have hcq : (0 : ℚ) ≤ a.vdw + b.vdw - tol := by exact_mod_cast hc
    refine ⟨⟨hcq, ?_⟩, ?_⟩
    · have hlt : (distSq a b : ℝ) < ((a.vdw : ℝ) + b.vdw - tol) ^ 2 := by
        calc (distSq a b : ℝ) = Real.sqrt (distSq a b) ^ 2 := hsq.symm
          _ < ((a.vdw : ℝ) + b.vdw - tol) ^ 2 := by
            have h0 : (0 : ℝ) ≤ Real.sqrt (distSq a b) := Real.sqrt_nonneg _
            nlinarith
      have : ((distSq a b : ℚ) : ℝ) < (((a.vdw + b.vdw - tol) ^ 2 : ℚ) : ℝ) := by
        push_cast
        push_cast at hlt
        linarith
      exact_mod_cast this
    · by_cases hm : hmin ≤ (0 : ℚ)
      · exact Or.inl hm
      · refine Or.inr ?_
        have hm' : (0 : ℝ) ≤ (hmin : ℝ) := by
          have : (0 : ℚ) ≤ hmin := le_of_not_le hm
          exact_mod_cast this
        have := (Real.le_sqrt hm' hd0).mp h2
        have : ((hmin ^ 2 : ℚ) : ℝ) ≤ ((distSq a b : ℚ) : ℝ) := by
          push_cast
          push_cast at this
          linarith
        exact_mod_cast this

/-- Modelled from the spec: an overlap pair in canonical order with its
symmetry tag (section 3): `isSym = true` when the contact involves a
symmetry copy, `false` for a macromolecule (identity) contact. -/
structure OverlapPair where
  i : Nat
  j : Nat
  isSym : Bool
deriving DecidableEq

/-- Modelled from the spec: the OverlapDetector scan over the unordered
same-asymmetric-unit pairs (section 4.4): every pair `i < j` not excluded
by topology or altloc incompatibility whose distance passes the clash
condition, tagged as a macromolecule contact. -/
def scanMacroMol (atoms : List Atom) (excluded : Nat → Nat → Bool)
    (tol hmin : ℚ) : List OverlapPair :=
  ((List.range atoms.length).map (fun i =>
    (((List.range atoms.length).filter (fun j =>
      decide (i < j) && !(excluded i j)
        && isClash (atoms.getD i default) (atoms.getD j default) tol hmin)).map
      (fun j => OverlapPair.mk i j false)))).flatten

/-- Modelled from the spec: the immutable results object (section 3). -/
structure ClashResults where
  n_clashes : Nat
  clashscore : ℚ
  n_clashes_sym : Nat
  clashscore_sym : ℚ
  n_clashes_macro_mol : Nat
  clashscore_macro_mol : ℚ
deriving DecidableEq

/-- Clashes per 1000 atoms (section 4.5). -/
def clashscoreOf (n n_atoms : Nat) : ℚ := ((n : ℚ) * 1000) / (n_atoms : ℚ)

/-- Modelled from the spec: the ClashAggregator (section 4.5): deduplicate
by the canonical key, count all pairs, the symmetry-tagged pairs, and the
macromolecule-tagged pairs, and normalize each count by the same atom
count. -/
def aggregate (pairs : List OverlapPair) (n_atoms : Nat) : ClashResults :=
  { n_clashes := pairs.dedup.length
    clashscore := clashscoreOf pairs.dedup.length n_atoms
    n_clashes_sym := pairs.dedup.countP (fun p => p.isSym)
    clashscore_sym :=
      clashscoreOf (pairs.dedup.countP (fun p => p.isSym)) n_atoms
    n_clashes_macro_mol := pairs.dedup.countP (fun p => !p.isSym)
    clashscore_macro_mol :=
      clashscoreOf (pairs.dedup.countP (fun p => !p.isSym)) n_atoms }

/-- Modelled from the spec: the inputs the engine consumes (section 6): the
atom table, the topological exclusion relation derived from the
connectivity graph (section 4.1), the symmetry-copy contacts produced by
the external symmetry machinery (section 4.3), and the configuration. -/
structure Model where
  atoms : List Atom
  excluded : Nat → Nat → Bool
  symPairs : List OverlapPair
  tol : ℚ
  hmin : ℚ

/-- All candidate clash pairs of a model: the identity-pair scan plus the
symmetry contacts. -/
def modelPairs (m : Model) : List OverlapPair :=
  scanMacroMol m.atoms m.excluded m.tol m.hmin ++ m.symPairs

/-- The object returned by `get_clashes`: the deduplicated overlap pairs
and the aggregated results. -/
structure Clashes where
  pairs : List OverlapPair
  results : ClashResults
deriving DecidableEq

/-- Modelled from the spec: `get_results` returns the immutable snapshot
held by the clashes object. -/
def get_results (c : Clashes) : ClashResults := c.results

/-- One full scan of a model. -/
def computeClashes (m : Model) : Clashes :=
  { pairs := (modelPairs m).dedup
    results := aggregate (modelPairs m) m.atoms.length }

/-- Modelled from the spec: the manager facade holding the model and the
clashes object it may have computed already. -/
structure Manager where
  model : Model
  cache : Option Clashes

/-- Modelled from the spec: `get_clashes` returns the scan of the
unmodified model, computing it on first use. -/
def get_clashes (st : Manager) : Clashes × Manager :=
  match st.cache with
  | some c => (c, st)
  | none => (computeClashes st.model,
      { model := st.model, cache := some (computeClashes st.model) })

/-! ## Claims C1 and C9: aggregation invariants -/

lemma countP_not_eq (pairs : List OverlapPair) :
    pairs.countP (fun p => decide ¬(p.isSym = true))
      = pairs.countP (fun p => !p.isSym) := by
  have hfe : (fun p : OverlapPair => decide ¬(p.isSym = true))
      = (fun p : OverlapPair => !p.isSym) := by
    funext p
    cases hp : p.isSym <;> simp
  rw [hfe]

lemma aggregate_partition (pairs : List OverlapPair) (n_atoms : Nat) :
    (aggregate pairs n_atoms).n_clashes
      = (aggregate pairs n_atoms).n_clashes_sym
        + (aggregate pairs n_atoms).n_clashes_macro_mol ∧
    pairs.dedup.countP (fun p => p.isSym && !p.isSym) = 0 := by
  constructor
  · unfold aggregate
    dsimp only
    rw [← countP_not_eq]
    exact List.length_eq_countP_add_countP (fun p => p.isSym) pairs.dedup
  · rw [List.countP_eq_zero]
    intro p _
    cases hp : p.isSym <;> simp [hp]

/-- C1: partition law: for every input model, the results of the clash
scan satisfy `n_clashes = n_clashes_sym + n_clashes_macro_mol` exactly,
and no deduplicated pair carries both tags (the predicate picking pairs
with both tags counts zero). -/
theorem c1_partition (m : Model) :
    (get_results (get_clashes ⟨m, none⟩).1).n_clashes
      = (get_results (get_clashes ⟨m, none⟩).1).n_clashes_sym
        + (get_results (get_clashes ⟨m, none⟩).1).n_clashes_macro_mol ∧
    (modelPairs m).dedup.countP (fun p => p.isSym && !p.isSym) = 0 := by
  have h := aggregate_partition (modelPairs m) m.atoms.length
  exact h

/-- C9: determinism and idempotence: a second `get_clashes` call on the
unmodified manager returns the identical clashes object, and the
aggregated results do not observe the iteration order of the overlap
pairs: permuting the pair list leaves `aggregate` unchanged. -/
theorem c9_deterministic (st : Manager) (p1 p2 : List OverlapPair)
    (n : Nat) (hp : p1.Perm p2) :
    (get_clashes ((get_clashes st).2)).1 = (get_clashes st).1 ∧
    aggregate p1 n = aggregate p2 n := by
  constructor
  · rcases st with ⟨mdl, _ | c⟩ <;> rfl
  · have hd : p1.dedup.Perm p2.dedup := hp.dedup
    unfold aggregate
    rw [hd.length_eq, hd.countP_eq (fun p => p.isSym),
      hd.countP_eq (fun p => !p.isSym)]

/-- Concrete model for the C9 witness: no atoms, no exclusions, no
symmetry contacts. -/
def mdlW : Model := ⟨[], fun _ _ => false, [], 0, 0⟩

def pW1 : List OverlapPair := [⟨0, 1, true⟩, ⟨0, 2, false⟩]

def pW2 : List OverlapPair := [⟨0, 2, false⟩, ⟨0, 1, true⟩]

/-- Witness for C9 on a concrete manager and a concrete permuted pair
list. -/
theorem c9_deterministic_witness :
    (get_clashes ((get_clashes ⟨mdlW, none⟩).2)).1
      = (get_clashes (⟨mdlW, none⟩ : Manager)).1 ∧
    aggregate pW1 3 = aggregate pW2 3 :=
  c9_deterministic ⟨mdlW, none⟩ pW1 pW2 3 (by decide)

/-! ## Claim C4: the four-point-atom fixture (raw_records_5) -/

/-- Modelled from the spec: the four point atoms of `raw_records_5`, all
nitrogen with a common van der Waals radius `r`: positions (5,5,5),
(6,5,5), (5,5.5,5.5), (5,5.5,5.5), the last two exactly coincident.  The
atoms are lone single-atom residues, so the connectivity graph has no
bonds and no pair is topologically excluded; with space group P 1 and a
20 A cell no symmetry copy comes within contact range, so the symmetry
contact list is empty.  Configuration per the regression setup: overlap
tolerance 0.4 and hard minimum nonbonded distance 0. -/
def fixtureA (r : ℚ) : Model :=
  { atoms := [⟨5, 5, 5, r, false⟩, ⟨6, 5, 5, r, false⟩,
      ⟨5, 11 / 2, 11 / 2, r, false⟩, ⟨5, 11 / 2, 11 / 2, r, false⟩]
    excluded := fun _ _ => false
    symPairs := []
    tol := 2 / 5
    hmin := 0 }

/-- The six overlap pairs the fixture scan produces. -/
def fixtureAPairs : List OverlapPair :=
  [⟨0, 1, false⟩, ⟨0, 2, false⟩, ⟨0, 3, false⟩,
   ⟨1, 2, false⟩, ⟨1, 3, false⟩, ⟨2, 3, false⟩]

/-- C4: on the four-point-atom fixture with two coincident atoms, for any
common nitrogen van der Waals radius `r` large enough that twice the
radius minus the 0.4 tolerance exceeds the largest pair distance (every
realistic nitrogen radius qualifies), the clash scan completes and counts
all six pairs, the coincident pair (2,3) among them, with
`n_clashes = 6` and `clashscore = 1500` exactly. -/
theorem c4_fixtureA (r : ℚ) (h1 : 2 / 5 ≤ 2 * r)
    (h2 : 3 / 2 < (2 * r - 2 / 5) ^ 2) :
    (get_results (get_clashes ⟨fixtureA r, none⟩).1).n_clashes = 6 ∧
    (get_results (get_clashes ⟨fixtureA r, none⟩).1).clashscore = 1500 ∧
    OverlapPair.mk 2 3 false ∈ (get_clashes ⟨fixtureA r, none⟩).1.pairs := by
  have hcl : ∀ a b : Atom, a.vdw = r → b.vdw = r → distSq a b ≤ 3 / 2 →
      isClash a b (2 / 5) 0 = true := by
    intro a b ha hb hd
    unfold isClash
    rw [ha, hb]
    have e0 : (r + r - 2 / 5 : ℚ) ^ 2 = (2 * r - 2 / 5) ^ 2 := by ring
    have e1 : (0 : ℚ) ≤ r + r - 2 / 5 := by linarith
    have e2 : distSq a b < (r + r - 2 / 5) ^ 2 := by rw [e0]; linarith
    simp [e1, e2]
  have h01 : isClash (⟨5, 5, 5, r, false⟩ : Atom) ⟨6, 5, 5, r, false⟩
      (2 / 5) 0 = true := hcl _ _ rfl rfl (by norm_num [distSq])
  have h02 : isClash (⟨5, 5, 5, r, false⟩ : Atom) ⟨5, 11 / 2, 11 / 2, r, false⟩
      (2 / 5) 0 = true := hcl _ _ rfl rfl (by norm_num [distSq])
  have h12 : isClash (⟨6, 5, 5, r, false⟩ : Atom) ⟨5, 11 / 2, 11 / 2, r, false⟩
      (2 / 5) 0 = true := hcl _ _ rfl rfl (by norm_num [distSq])
  have h22 : isClash (⟨5, 11 / 2, 11 / 2, r, false⟩ : Atom)
      ⟨5, 11 / 2, 11 / 2, r, false⟩ (2 / 5) 0 = true :=
    hcl _ _ rfl rfl (by norm_num [distSq])
  have hscan : scanMacroMol (fixtureA r).atoms (fixtureA r).excluded
      (fixtureA r).tol (fixtureA r).hmin = fixtureAPairs := by
    unfold scanMacroMol fixtureA fixtureAPairs
    dsimp only
    have hr4 : List.range 4 = [0, 1, 2, 3] := by decide
    simp only [List.length_cons, List.length_nil, hr4, List.map_cons,
      List.map_nil, List.filter_cons, List.filter_nil, List.getD_cons_zero,
      List.getD_cons_succ, h01, h02, h12, h22]
    simp
  have hmp : modelPairs (fixtureA r) = fixtureAPairs := by
    unfold modelPairs
    rw [hscan]
    dsimp only [fixtureA]
    exact List.append_nil _
  have hded : fixtureAPairs.dedup = fixtureAPairs := by decide
  refine ⟨?_, ?_, ?_⟩
  · show (aggregate (modelPairs (fixtureA r))
        (fixtureA r).atoms.length).n_clashes = 6
    rw [hmp]
    unfold aggregate
    dsimp only
    rw [hded]
    rfl
  · show (aggregate (modelPairs (fixtureA r))
        (fixtureA r).atoms.length).clashscore = 1500
    rw [hmp]
    unfold aggregate
    dsimp only
    rw [hded]
    show clashscoreOf 6 4 = 1500
    norm_num [clashscoreOf]
  · show OverlapPair.mk 2 3 false ∈ (modelPairs (fixtureA r)).dedup
    rw [hmp, hded]
    decide

/-- Witness for C4 at the cctbx nitrogen van der Waals radius 1.55. -/
theorem c4_fixtureA_witness :
    (get_results (get_clashes ⟨fixtureA (31 / 20), none⟩).1).n_clashes = 6 ∧
    (get_results (get_clashes ⟨fixtureA (31 / 20), none⟩).1).clashscore
      = 1500 ∧
    OverlapPair.mk 2 3 false
      ∈ (get_clashes ⟨fixtureA (31 / 20), none⟩).1.pairs :=
  c4_fixtureA (31 / 20) (by norm_num) (by norm_num)

/-! ## Claim C10: the clashscore normalization basis

The hydrogen flags of every atom record of the three PDB fixtures, in
record order, embedded from the fixture text (true = hydrogen). -/

/-- Hydrogen flags of the 47 atoms of `raw_records_2` (fixture B). -/
def fixtureB_hd : List Bool :=
  [false, false, false, false, false, false, false, false, false, false,
   false, false, false, false, false, false, false, false, false, false,
   false, false, false, false, true, true, true, true, true, true, true,
   true, true, true, true, true, false, false, false, false, false, false,
   true, true, true, true, true]

/-- Hydrogen flags of the 52 atoms of `raw_records_0` (fixture C). -/
def fixtureC_hd : List Bool :=
  [false, false, false, false, false, false, false, false, true, true, true,
   true, true, true, true, true, true, true, true, false, false, false,
   false, false, false, false, false, true, true, true, true, true, true,
   true, true, true, true, true, false, false, false, false, false, false,
   false, true, true, true, true, true, true, true]

/-- Hydrogen flags of the 139 atoms of `raw_records_1` (fixture D). -/
def fixtureD_hd : List Bool :=
  [false, false, false, false, false, false, false, false, false, false,
   false, false, false, false, false, false, false, false, false, false,
   false, false, false, false, true, true, true, true, true, true, true,
   true, true, true, true, true, false, false, false, false, false, false,
   false, true, true, true, true, true, true, true, true, true, false,
   false, false, false, false, false, false, false, true, true, true, true,
   true, true, true, true, true, false, false, false, false, false, false,
   false, false, false, true, true, true, true, true, true, true, true,
   true, true, true, true, true, false, false, false, false, true, true,
   true, false, false, false, false, false, false, false, true, true, true,
   true, true, true, true, true, true, false, false, false, false, false,
   false, false, true, true, true, true, true, true, true, false, false,
   false, false, false, false, true, true, true, true, true]

set_option maxRecDepth 4000 in
/-- C10: the atom-count basis of the clashscore normalization is the total
number of atoms of the model, hydrogens included: with the embedded
per-fixture atom counts, `n_clashes * 1000 / n_total_atoms` reproduces
every regression value — 6*1000/4 = 1500 exactly for the 4-atom fixture,
4*1000/47 within 0.1 of 85.11, 2*1000/52 within 0.1 of 38.46, and
4*1000/139 within 0.1 of 28.77 — while the hydrogen-excluded basis of
fixture B (30 heavy atoms) misses its regression value. -/
theorem c10_clashscore_basis :
    (fixtureA 1).atoms.length = 4 ∧
    clashscoreOf 6 (fixtureA 1).atoms.length = 1500 ∧
    fixtureB_hd.length = 47 ∧
    |clashscoreOf 4 fixtureB_hd.length - 85.11| ≤ 0.1 ∧
    fixtureC_hd.length = 52 ∧
    |clashscoreOf 2 fixtureC_hd.length - 38.46| ≤ 0.1 ∧
    fixtureD_hd.length = 139 ∧
    |clashscoreOf 4 fixtureD_hd.length - 28.77| ≤ 0.1 ∧
    fixtureB_hd.countP (fun b => !b) = 30 ∧
    ¬ (|clashscoreOf 4 (fixtureB_hd.countP (fun b => !b)) - 85.11| ≤ 0.1) := by
  have hb : fixtureB_hd.length = 47 := by decide
  have hc : fixtureC_hd.length = 52 := by decide
  have hd : fixtureD_hd.length = 139 := by decide
  have hh : fixtureB_hd.countP (fun b => !b) = 30 := by decide
  refine ⟨rfl, by norm_num [clashscoreOf, fixtureA], hb, ?_, hc, ?_, hd, ?_, hh, ?_⟩
  · rw [hb, abs_le]
    constructor <;> norm_num [clashscoreOf]
  · rw [hc, abs_le]
    constructor <;> norm_num [clashscoreOf]
  · rw [hd, abs_le]
    constructor <;> norm_num [clashscoreOf]
  · rw [hh, abs_le]
    intro habs
    have h2 := habs.2
    norm_num [clashscoreOf] at h2

end PNP
